import Mathlib

/-!
# Event-Window Return Calculator: a shallow embedding

Shallow embedding of `calculate_price_movement` and the aggregation loop of
`analyze_stock_earnings` from `src/calc_earnings.py`.

Modelling choices:
* A trading date is an `Int` (a calendar day number); calendar arithmetic such
  as `event_date - 5 days` is plain integer arithmetic, since all dates in the
  source are normalized to midnight (`pd.Timestamp(...).normalize()`) before use.
* Prices are rationals (`ℚ`); Python's `round(x, 2)` (round-half-to-even on the
  value) is modelled by `round2`.
* A `pandas.DataFrame` of daily OHLCV bars indexed by date becomes `List Bar`.
  The spec's precondition that the index is strictly ascending is the
  proposition `SortedSeries`.
* The Python result `dict` (with its Chinese keys) becomes the record
  `WindowResult`, with the spec's field names: 财报日期 ↦ `event_date`,
  实际交易日 ↦ `resolved_trading_date`, 财报前收盘价 ↦ `pre_event_close`,
  财报日收盘价 ↦ `event_day_close`, 财报日涨跌幅(%) ↦ `event_day_return_pct`,
  第N日后涨跌幅(%) ↦ `forward_returns` (an ordered association list keyed by N),
  第1日后收盘价 ↦ `day1_close`, 期间最高价/最低价 ↦ `window_high`/`window_low`,
  最大涨幅(%)/最大跌幅(%) ↦ `window_max_gain_pct`/`window_max_loss_pct`.
  A key absent from the dict is `none` (or a missing key of `forward_returns`).
* `stock_data.loc[d, 'Close']` on the unique sorted index is `closeAt`; the
  label slice `stock_data.loc[a:b]` (inclusive at both ends) is a filter on the
  date range; `Series.max()`/`.min()` over a nonempty column are `maxlQ`/`minlQ`.
* The `days_after` parameter is a `Nat`; the source's contract (`forward_days
  >= 1`, default `5`) keeps the Python expression `post_dates[days_after - 1]`
  away from negative indexing, so `Nat` subtraction at `days_after = 0` is
  outside the contract and theorems about the extrema branch assume
  `1 ≤ days_after`.
* The timezone state of the DataFrame index (mutated in place by the source
  when a timezone is attached) is modelled by `StockData`, a pair of an
  optional timezone and the bars; `calculate_price_movement_call` returns the
  post-call state of the input alongside the result, so that frame (mutation)
  properties can be stated.
-/

unseal Rat.add Rat.sub Rat.mul Rat.inv

/-- One daily OHLCV bar of the price series (a row of the DataFrame together
with its index date). -/
structure Bar where
  date : Int
  open_ : ℚ
  high : ℚ
  low : ℚ
  close : ℚ
  volume : ℚ
deriving DecidableEq, Repr

/-- The spec's `PriceSeries` invariant: index dates strictly increasing. -/
def SortedSeries (stock_data : List Bar) : Prop :=
  (stock_data.map Bar.date).Pairwise (· < ·)

instance (stock_data : List Bar) : Decidable (SortedSeries stock_data) :=
  List.instDecidablePairwise _

/-- Python's `round` (round half to even) applied at an integer result.  The
floor of `x` is written `Int.fdiv x.num x.den` (floor division by the positive
denominator) so that the definition evaluates inside the kernel. -/
def roundHalfEven (x : ℚ) : Int :=
  let f : Int := Int.fdiv x.num x.den
  let r : ℚ := x - (f : ℚ)
  if r < 1/2 then f
  else if 1/2 < r then f + 1
  else if f % 2 = 0 then f else f + 1

/-- Python's `round(x, 2)`: round half to even at two decimal places. -/
def round2 (x : ℚ) : ℚ :=
  (roundHalfEven (x * 100) : ℚ) / 100

/-- The output record (`WindowResult` of the spec): the dict assembled by
`calculate_price_movement`.  Optional fields are keys the dict may lack. -/
structure WindowResult where
  event_date : Int
  resolved_trading_date : Int
  pre_event_close : ℚ
  event_day_close : ℚ
  event_day_return_pct : ℚ
  forward_returns : List (Nat × ℚ)
  day1_close : Option ℚ
  window_high : Option ℚ
  window_low : Option ℚ
  window_max_gain_pct : Option ℚ
  window_max_loss_pct : Option ℚ
deriving DecidableEq, Repr

/-- A default record, used only as the `Option.getD` fallback in closed
witness statements. -/
def defaultResult : WindowResult :=
  { event_date := 0, resolved_trading_date := 0, pre_event_close := 0,
    event_day_close := 0, event_day_return_pct := 0, forward_returns := [],
    day1_close := none, window_high := none, window_low := none,
    window_max_gain_pct := none, window_max_loss_pct := none }

/-- `stock_data.index` as a list of dates. -/
def tradingDates (stock_data : List Bar) : List Int :=
  stock_data.map Bar.date

/-- `stock_data.index.intersection(pd.date_range(earnings_date - 5, earnings_date + 1))`:
the trading dates inside the closed calendar window `[e-5, e+1]`.  For a sorted
unique index the pandas intersection is the order-preserving filter. -/
def availableDates (stock_data : List Bar) (earnings_date : Int) : List Int :=
  (tradingDates stock_data).filter
    (fun d => decide (earnings_date - 5 ≤ d ∧ d ≤ earnings_date + 1))

/-- `available_dates[-1]` guarded by `len(available_dates) == 0`: the resolved
event trading day, `none` when the window holds no trading date. -/
def resolveEventDay (stock_data : List Bar) (earnings_date : Int) : Option Int :=
  (availableDates stock_data earnings_date).getLast?

/-- `stock_data.index[stock_data.index < earnings_day]`. -/
def preDates (stock_data : List Bar) (earnings_day : Int) : List Int :=
  (tradingDates stock_data).filter (fun d => decide (d < earnings_day))

/-- `stock_data.index[stock_data.index > earnings_day]`. -/
def postDates (stock_data : List Bar) (earnings_day : Int) : List Int :=
  (tradingDates stock_data).filter (fun d => decide (earnings_day < d))

/-- `stock_data.loc[d, 'Close']` on the unique index (the `0` fallback is never
reached for a date taken from the index). -/
def closeAt (stock_data : List Bar) (d : Int) : ℚ :=
  ((stock_data.find? (fun b => b.date = d)).map Bar.close).getD 0

/-- Maximum of a column (`Series.max()`); the series is nonempty wherever the
source takes it. -/
def maxlQ : List ℚ → ℚ
  | [] => 0
  | a :: l => l.foldl max a

/-- Minimum of a column (`Series.min()`). -/
def minlQ : List ℚ → ℚ
  | [] => 0
  | a :: l => l.foldl min a

/-- Steps 4–7 of `calculate_price_movement` (lines 152–198 of the source): the
dict built once the event day, the baseline day and a nonempty forward list
exist.  `earnings_day` is the resolved event trading day and
`pre_earnings_day` the baseline trading day. -/
def mkResult (stock_data : List Bar) (earnings_date : Int) (days_after : Nat)
    (earnings_day pre_earnings_day : Int) : WindowResult :=
  let pre_close := closeAt stock_data pre_earnings_day
  let earnings_day_close := closeAt stock_data earnings_day
  let post_dates := postDates stock_data earnings_day
  -- `for day in range(1, min(days_after + 1, len(post_dates) + 1))`
  let m := min days_after post_dates.length
  let forward_returns := (List.range m).map (fun i =>
    (i + 1, round2 ((closeAt stock_data (post_dates.getD i 0) - pre_close) / pre_close * 100)))
  let day1_close :=
    if 1 ≤ m then some (round2 (closeAt stock_data (post_dates.getD 0 0))) else none
  let base : WindowResult :=
    { event_date := earnings_date
      resolved_trading_date := earnings_day
      pre_event_close := round2 pre_close
      event_day_close := round2 earnings_day_close
      event_day_return_pct := round2 ((earnings_day_close - pre_close) / pre_close * 100)
      forward_returns := forward_returns
      day1_close := day1_close
      window_high := none, window_low := none
      window_max_gain_pct := none, window_max_loss_pct := none }
  -- `if len(post_dates) >= days_after:` — the windowed-extrema block
  if days_after ≤ post_dates.length then
    let end_day := post_dates.getD (days_after - 1) 0
    let period := stock_data.filter
      (fun b => decide (earnings_day ≤ b.date ∧ b.date ≤ end_day))
    let max_price := maxlQ (period.map Bar.high)
    let min_price := minlQ (period.map Bar.low)
    { base with
      window_high := some (round2 max_price)
      window_low := some (round2 min_price)
      window_max_gain_pct := some (round2 ((max_price - pre_close) / pre_close * 100))
      window_max_loss_pct := some (round2 ((min_price - pre_close) / pre_close * 100)) }
  else base

/-- `calculate_price_movement(stock_data, earnings_date, days_after)` on a
timezone-naive series: resolve the event trading day within `[e-5, e+1]`, the
baseline day strictly before it and the forward dates strictly after it,
returning `none` when any of the three is missing, else the assembled dict. -/
def calculate_price_movement (stock_data : List Bar) (earnings_date : Int)
    (days_after : Nat) : Option WindowResult :=
  match resolveEventDay stock_data earnings_date with
  | none => none
  | some earnings_day =>
    match (preDates stock_data earnings_day).getLast? with
    | none => none
    | some pre_earnings_day =>
      if (postDates stock_data earnings_day).isEmpty then none
      else some (mkResult stock_data earnings_date days_after earnings_day pre_earnings_day)

/-- The DataFrame together with the timezone attached to its index (`none` =
timezone-naive), so calls can be observed for mutation of their input. -/
structure StockData where
  tz : Option Int
  bars : List Bar
deriving DecidableEq, Repr

/-- The full call including lines 119–121 of the source
(`stock_data.index = stock_data.index.tz_localize(None)` when a timezone is
attached — an in-place mutation of the caller's DataFrame).  Returns the
result together with the post-call state of `stock_data`
(`tz_localize(None)` drops the timezone and keeps the wall-clock dates). -/
def calculate_price_movement_call (stock_data : StockData) (earnings_date : Int)
    (days_after : Nat) : Option WindowResult × StockData :=
  let stock_data' :=
    if stock_data.tz.isSome then { stock_data with tz := none } else stock_data
  (calculate_price_movement stock_data'.bars earnings_date days_after, stock_data')

/-- The aggregation loop of `analyze_stock_earnings` (lines 249–253): analyse
the first 15 event dates, keeping the non-`None` results in order. -/
def analyze_stock_earnings (stock_data : List Bar) (earnings_dates : List Int) :
    List WindowResult :=
  (earnings_dates.take 15).filterMap
    (fun d => calculate_price_movement stock_data d 5)

/-! ## Helper lemmas -/

/-- In a strictly ascending list the last element bounds every element. -/
theorem sorted_le_getLast {l : List Int} (hs : l.Pairwise (· < ·)) {d : Int}
    (hd : l.getLast? = some d) : ∀ x ∈ l, x ≤ d := by
  induction l with
  | nil => intro x hx; cases hx
  | cons a t ih =>
    intro x hx
    cases t with
    | nil =>
      simp only [List.getLast?_singleton, Option.some_inj] at hd
      rcases List.mem_singleton.mp hx with rfl
      omega
    | cons b m =>
      rw [List.getLast?_cons_cons] at hd
      rcases List.mem_cons.mp hx with rfl | hx'
      · have hdm : d ∈ b :: m := List.mem_of_getLast?_eq_some hd
        exact le_of_lt (List.rel_of_pairwise_cons hs hdm)
      · exact ih hs.of_cons hd x hx'

/-- In a strictly ascending list, a member bounding every element is the last. -/
theorem sorted_getLast_of_max {l : List Int} (hs : l.Pairwise (· < ·)) {e : Int}
    (he : e ∈ l) (hmax : ∀ x ∈ l, x ≤ e) : l.getLast? = some e := by
  induction l with
  | nil => cases he
  | cons a t ih =>
    cases t with
    | nil =>
      rcases List.mem_singleton.mp he with rfl
      simp
    | cons b m =>
      rw [List.getLast?_cons_cons]
      rcases List.mem_cons.mp he with rfl | he'
      · have hb : b ≤ e := hmax b (by simp)
        have : e < b := List.rel_of_pairwise_cons hs (by simp)
        omega
      · exact ih hs.of_cons he' (fun x hx => hmax x (List.mem_cons_of_mem a hx))

/-- In a strictly ascending list the head bounds every element from below. -/
theorem sorted_head_le {l : List Int} (hs : l.Pairwise (· < ·)) {d : Int}
    (hd : l.head? = some d) : ∀ x ∈ l, d ≤ x := by
  cases l with
  | nil => intro x hx; cases hx
  | cons a t =>
    simp only [List.head?_cons, Option.some_inj] at hd
    subst hd
    intro x hx
    rcases List.mem_cons.mp hx with rfl | hx'
    · omega
    · exact le_of_lt (List.rel_of_pairwise_cons hs hx')

/-- The window filter keeps the series strictly ascending. -/
theorem availableDates_sorted {stock_data : List Bar} (hs : SortedSeries stock_data)
    (earnings_date : Int) :
    (availableDates stock_data earnings_date).Pairwise (· < ·) :=
  List.Pairwise.sublist (List.filter_sublist _) hs

/-- Inversion of a successful call: the three guards passed and the result is
the assembled dict. -/
theorem calculate_price_movement_eq_some {stock_data : List Bar}
    {earnings_date : Int} {days_after : Nat} {r : WindowResult}
    (h : calculate_price_movement stock_data earnings_date days_after = some r) :
    ∃ earnings_day pre_earnings_day,
      resolveEventDay stock_data earnings_date = some earnings_day ∧
      (preDates stock_data earnings_day).getLast? = some pre_earnings_day ∧
      postDates stock_data earnings_day ≠ [] ∧
      r = mkResult stock_data earnings_date days_after earnings_day pre_earnings_day := by
  unfold calculate_price_movement at h
  split at h
  · cases h
  · rename_i d hres
    split at h
    · cases h
    · rename_i p hpre
      split at h
      · cases h
      · rename_i hpost
        exact ⟨d, p, hres, hpre, by simpa using hpost, (Option.some_inj.mp h).symm⟩

theorem mkResult_resolved (stock_data : List Bar) (earnings_date : Int)
    (days_after : Nat) (earnings_day pre_earnings_day : Int) :
    (mkResult stock_data earnings_date days_after
      earnings_day pre_earnings_day).resolved_trading_date = earnings_day := by
  simp only [mkResult]
  split <;> rfl

theorem mkResult_return_pct (stock_data : List Bar) (earnings_date : Int)
    (days_after : Nat) (earnings_day pre_earnings_day : Int) :
    (mkResult stock_data earnings_date days_after
      earnings_day pre_earnings_day).event_day_return_pct =
      round2 ((closeAt stock_data earnings_day - closeAt stock_data pre_earnings_day) /
        closeAt stock_data pre_earnings_day * 100) := by
  simp only [mkResult]
  split <;> rfl

theorem mkResult_forward_returns (stock_data : List Bar) (earnings_date : Int)
    (days_after : Nat) (earnings_day pre_earnings_day : Int) :
    (mkResult stock_data earnings_date days_after
      earnings_day pre_earnings_day).forward_returns =
      (List.range (min days_after (postDates stock_data earnings_day).length)).map
        (fun i => (i + 1,
          round2 ((closeAt stock_data ((postDates stock_data earnings_day).getD i 0) -
            closeAt stock_data pre_earnings_day) /
            closeAt stock_data pre_earnings_day * 100))) := by
  simp only [mkResult]
  split <;> rfl

theorem mkResult_day1_close (stock_data : List Bar) (earnings_date : Int)
    (days_after : Nat) (earnings_day pre_earnings_day : Int) :
    (mkResult stock_data earnings_date days_after
      earnings_day pre_earnings_day).day1_close =
      (if 1 ≤ min days_after (postDates stock_data earnings_day).length then
        some (round2 (closeAt stock_data ((postDates stock_data earnings_day).getD 0 0)))
      else none) := by
  simp only [mkResult]
  split <;> rfl

theorem mkResult_extrema_of_le (stock_data : List Bar) (earnings_date : Int)
    (days_after : Nat) (earnings_day pre_earnings_day : Int)
    (h : days_after ≤ (postDates stock_data earnings_day).length) :
    (mkResult stock_data earnings_date days_after earnings_day pre_earnings_day).window_high =
      some (round2 (maxlQ ((stock_data.filter (fun b =>
        decide (earnings_day ≤ b.date ∧
          b.date ≤ (postDates stock_data earnings_day).getD (days_after - 1) 0))).map Bar.high))) ∧
    (mkResult stock_data earnings_date days_after earnings_day pre_earnings_day).window_low =
      some (round2 (minlQ ((stock_data.filter (fun b =>
        decide (earnings_day ≤ b.date ∧
          b.date ≤ (postDates stock_data earnings_day).getD (days_after - 1) 0))).map Bar.low))) ∧
    (mkResult stock_data earnings_date days_after earnings_day pre_earnings_day).window_max_gain_pct =
      some (round2 ((maxlQ ((stock_data.filter (fun b =>
        decide (earnings_day ≤ b.date ∧
          b.date ≤ (postDates stock_data earnings_day).getD (days_after - 1) 0))).map Bar.high) -
        closeAt stock_data pre_earnings_day) / closeAt stock_data pre_earnings_day * 100)) ∧
    (mkResult stock_data earnings_date days_after earnings_day pre_earnings_day).window_max_loss_pct =
      some (round2 ((minlQ ((stock_data.filter (fun b =>
        decide (earnings_day ≤ b.date ∧
          b.date ≤ (postDates stock_data earnings_day).getD (days_after - 1) 0))).map Bar.low) -
        closeAt stock_data pre_earnings_day) / closeAt stock_data pre_earnings_day * 100)) := by
  simp only [mkResult]
  rw [if_pos h]
  exact ⟨rfl, rfl, rfl, rfl⟩

theorem mkResult_extrema_of_lt (stock_data : List Bar) (earnings_date : Int)
    (days_after : Nat) (earnings_day pre_earnings_day : Int)
    (h : (postDates stock_data earnings_day).length < days_after) :
    (mkResult stock_data earnings_date days_after earnings_day pre_earnings_day).window_high = none ∧
    (mkResult stock_data earnings_date days_after earnings_day pre_earnings_day).window_low = none ∧
    (mkResult stock_data earnings_date days_after earnings_day pre_earnings_day).window_max_gain_pct = none ∧
    (mkResult stock_data earnings_date days_after earnings_day pre_earnings_day).window_max_loss_pct = none := by
  simp only [mkResult]
  rw [if_neg (by omega)]
  exact ⟨rfl, rfl, rfl, rfl⟩

/-! ## Concrete example inputs for witnesses and counterexamples -/

/-- A flat bar: every price column equals `c`. -/
def mkBar (d : Int) (c : ℚ) : Bar := ⟨d, c, c, c, c, 0⟩

/-- A bar with distinct high and low. -/
def mkBarHL (d : Int) (hi lo c : ℚ) : Bar := ⟨d, c, hi, lo, c, 0⟩

/-- Input of the C1 counterexample: a single bar whose date is the event date. -/
def exC1a : List Bar := [mkBar 10 100]

/-- Input of the C1 witness. -/
def exC1w : List Bar := [mkBar 1 100, mkBar 2 105, mkBar 4 103]

/-- Result of the C1 witness run. -/
def rC1w : WindowResult := (calculate_price_movement exC1w 2 5).getD defaultResult

/-- Claim C1, counterexample to "returns None exactly when no trading date of
the series falls in that window": for the one-bar series at date 10 and event
date 10, the date 10 lies in the window `[5, 11]`, yet `compute` returns
`None` (there is no baseline trading day). -/
theorem c1_counterexample :
    ((10 : Int) - 5 ≤ 10 ∧ (10 : Int) ≤ 10 + 1) ∧
    (10 : Int) ∈ tradingDates exC1a ∧
    calculate_price_movement exC1a 10 5 = none := by decide

/-- Claim C1 (amended): on a strictly ascending series, `compute` returns
`None` whenever no trading date falls in the closed window
`[event_date - 5, event_date + 1]`, and every non-`None` result resolves the
event trading day to a trading date of the series that lies in that window and
is the latest such date.  (The original "exactly when" fails: `compute` also
returns `None` when the baseline or forward data is missing.) -/
theorem c1_resolution_window (stock_data : List Bar) (earnings_date : Int)
    (days_after : Nat) (r : WindowResult) (hs : SortedSeries stock_data) :
    ((∀ d ∈ tradingDates stock_data,
        ¬(earnings_date - 5 ≤ d ∧ d ≤ earnings_date + 1)) →
      calculate_price_movement stock_data earnings_date days_after = none) ∧
    (calculate_price_movement stock_data earnings_date days_after = some r →
      r.resolved_trading_date ∈ tradingDates stock_data ∧
      earnings_date - 5 ≤ r.resolved_trading_date ∧
      r.resolved_trading_date ≤ earnings_date + 1 ∧
      ∀ d ∈ tradingDates stock_data,
        earnings_date - 5 ≤ d → d ≤ earnings_date + 1 →
          d ≤ r.resolved_trading_date) := by
  constructor
  · intro hnone
    have hempty : availableDates stock_data earnings_date = [] := by
      simp only [availableDates, List.filter_eq_nil_iff, decide_eq_true_eq]
      exact hnone
    unfold calculate_price_movement resolveEventDay
    rw [hempty]
    rfl
  · intro h
    obtain ⟨d, p, hres, hpre, hpost, hr⟩ := calculate_price_movement_eq_some h
    have hrd : r.resolved_trading_date = d := by rw [hr, mkResult_resolved]
    have hd_mem : d ∈ availableDates stock_data earnings_date :=
      List.mem_of_getLast?_eq_some hres
    have hd_mem' := hd_mem
    simp only [availableDates, List.mem_filter, decide_eq_true_eq] at hd_mem'
    refine ⟨hrd ▸ hd_mem'.1, hrd ▸ hd_mem'.2.1, hrd ▸ hd_mem'.2.2, ?_⟩
    intro x hx h1 h2
    have hx_mem : x ∈ availableDates stock_data earnings_date := by
      simp only [availableDates, List.mem_filter, decide_eq_true_eq]
      exact ⟨hx, h1, h2⟩
    rw [hrd]
    exact sorted_le_getLast (availableDates_sorted hs earnings_date) hres x hx_mem

/-- Witness for the C1 theorem at the three-bar series `exC1w`, event date 2. -/
theorem c1_resolution_window_witness :
    SortedSeries exC1w ∧
    (((∀ d ∈ tradingDates exC1w, ¬((2 : Int) - 5 ≤ d ∧ d ≤ (2 : Int) + 1)) →
        calculate_price_movement exC1w 2 5 = none) ∧
      (calculate_price_movement exC1w 2 5 = some rC1w →
        rC1w.resolved_trading_date ∈ tradingDates exC1w ∧
        (2 : Int) - 5 ≤ rC1w.resolved_trading_date ∧
        rC1w.resolved_trading_date ≤ (2 : Int) + 1 ∧
        ∀ d ∈ tradingDates exC1w,
          (2 : Int) - 5 ≤ d → d ≤ (2 : Int) + 1 →
            d ≤ rC1w.resolved_trading_date)) :=
  ⟨by decide, c1_resolution_window exC1w 2 5 rC1w (by decide)⟩

/-- Input of the C2 counterexample: consecutive trading dates 9–12. -/
def exC2a : List Bar := [mkBar 9 100, mkBar 10 105, mkBar 11 103, mkBar 12 104]

/-- Input of the C2 witness: event date 2 is a trading date and date 3 is not. -/
def exC2w : List Bar := [mkBar 1 100, mkBar 2 105, mkBar 4 103]

/-- Claim C2, counterexample: event date 10 is itself a trading date of the
series 9,10,11,12, yet the returned result resolves the event trading day to
11 (the window extends one day past the event and the code takes the latest
in-window date), not to 10. -/
theorem c2_counterexample :
    (10 : Int) ∈ tradingDates exC2a ∧
    (calculate_price_movement exC2a 10 5).map WindowResult.resolved_trading_date =
      some 11 := by decide

/-- Claim C2 (amended): on a strictly ascending series, if the event date is a
trading date and the day after it is not a trading date, every non-`None`
result resolves the event trading day to the event date itself.  (As stated
the claim fails: when `event_date + 1` is also a trading date it is the latest
date in the window `[event_date - 5, event_date + 1]` and is picked instead.) -/
theorem c2_exact_match (stock_data : List Bar) (earnings_date : Int)
    (days_after : Nat) (r : WindowResult) (hs : SortedSeries stock_data)
    (hmem : earnings_date ∈ tradingDates stock_data)
    (hnext : earnings_date + 1 ∉ tradingDates stock_data)
    (h : calculate_price_movement stock_data earnings_date days_after = some r) :
    r.resolved_trading_date = earnings_date := by
  obtain ⟨d, p, hres, hpre, hpost, hr⟩ := calculate_price_movement_eq_some h
  have hrd : r.resolved_trading_date = d := by rw [hr, mkResult_resolved]
  have hlast : (availableDates stock_data earnings_date).getLast? = some earnings_date := by
    apply sorted_getLast_of_max (availableDates_sorted hs earnings_date)
    · simp only [availableDates, List.mem_filter, decide_eq_true_eq]
      exact ⟨hmem, by omega, by omega⟩
    · intro x hx
      simp only [availableDates, List.mem_filter, decide_eq_true_eq] at hx
      rcases hx with ⟨hx_mem, _, hx_ub⟩
      by_cases hx_eq : x = earnings_date + 1
      · exact absurd (hx_eq ▸ hx_mem) hnext
      · omega
  have : some d = some earnings_date := by
    rw [← hlast]; exact hres.symm
  rw [hrd, Option.some_inj.mp this]

/-- Witness for the C2 theorem: series 1,2,4 with event date 2 resolves to 2. -/
theorem c2_exact_match_witness :
    SortedSeries exC2w ∧ (2 : Int) ∈ tradingDates exC2w ∧
    (2 : Int) + 1 ∉ tradingDates exC2w ∧
    calculate_price_movement exC2w 2 5 =
      some ((calculate_price_movement exC2w 2 5).getD defaultResult) ∧
    ((calculate_price_movement exC2w 2 5).getD defaultResult).resolved_trading_date = 2 :=
  ⟨by decide, by decide, by decide, by decide,
    c2_exact_match exC2w 2 5 ((calculate_price_movement exC2w 2 5).getD defaultResult)
      (by decide) (by decide) (by decide) (by decide)⟩

/-- Input of the C3 witness: baseline close 100, event-day close 105, day-3
forward close 95 (dates 1, 2, 4, 5, 6; event date 2, date 3 not traded). -/
def exC3 : List Bar := [mkBar 1 100, mkBar 2 105, mkBar 4 101, mkBar 5 103, mkBar 6 95]

/-- Result of the C3 witness run. -/
def rC3 : WindowResult := (calculate_price_movement exC3 2 5).getD defaultResult

/-- Claim C3 (confirmed): in every non-`None` result, the event-day return is
`round2((event_day_close - pre_event_close) / pre_event_close * 100)` and for
every index `i < min forward_days #forward` the entry keyed `i+1` of the
forward returns is
`round2((close on the (i+1)-th forward date - pre_event_close) / pre_event_close * 100)`,
with `pre_event_close` the (unrounded) close on the baseline day `p`. -/
theorem c3_return_arithmetic (stock_data : List Bar) (earnings_date : Int)
    (days_after : Nat) (r : WindowResult) (p : Int)
    (h : calculate_price_movement stock_data earnings_date days_after = some r)
    (hp : (preDates stock_data r.resolved_trading_date).getLast? = some p) :
    r.event_day_return_pct =
      round2 ((closeAt stock_data r.resolved_trading_date - closeAt stock_data p) /
        closeAt stock_data p * 100) ∧
    ∀ i, i < min days_after (postDates stock_data r.resolved_trading_date).length →
      r.forward_returns[i]? = some (i + 1,
        round2 ((closeAt stock_data
            ((postDates stock_data r.resolved_trading_date).getD i 0) -
          closeAt stock_data p) / closeAt stock_data p * 100)) := by
  obtain ⟨d, p', hres, hpre, hpost, hr⟩ := calculate_price_movement_eq_some h
  have hrd : r.resolved_trading_date = d := by rw [hr, mkResult_resolved]
  rw [hrd] at hp
  have hpp : p' = p := Option.some_inj.mp (hpre.symm.trans hp)
  subst hpp
  constructor
  · rw [hrd, hr, mkResult_return_pct]
  · intro i hi
    rw [hrd] at hi ⊢
    rw [hr, mkResult_forward_returns, List.getElem?_map, List.getElem?_range hi]
    rfl

/-- Witness for the C3 theorem: with baseline close 100 and event-day close
105 the event-day return is 5.00, and with day-3 forward close 95 the day-3
cumulative return is -5.00. -/
theorem c3_return_arithmetic_witness :
    calculate_price_movement exC3 2 5 = some rC3 ∧
    (preDates exC3 rC3.resolved_trading_date).getLast? = some 1 ∧
    (rC3.event_day_return_pct =
        round2 ((closeAt exC3 rC3.resolved_trading_date - closeAt exC3 1) /
          closeAt exC3 1 * 100) ∧
      ∀ i, i < min 5 (postDates exC3 rC3.resolved_trading_date).length →
        rC3.forward_returns[i]? = some (i + 1,
          round2 ((closeAt exC3 ((postDates exC3 rC3.resolved_trading_date).getD i 0) -
            closeAt exC3 1) / closeAt exC3 1 * 100))) ∧
    rC3.event_day_return_pct = 5 ∧
    rC3.forward_returns[(2 : Nat)]? = some (3, -5) :=
  ⟨by decide, by decide,
    c3_return_arithmetic exC3 2 5 rC3 1 (by decide) (by decide),
    by decide, by decide⟩

/-- Input of the C4 witness: only three forward trading dates (4, 5, 6) exist
after the resolved event day 2, with `forward_days = 5`. -/
def exC4 : List Bar := [mkBar 1 100, mkBar 2 105, mkBar 4 101, mkBar 5 103, mkBar 6 95]

/-- Result of the C4 witness run. -/
def rC4 : WindowResult := (calculate_price_movement exC4 2 5).getD defaultResult

/-- Claim C4 (confirmed): when the result exists and only `m < forward_days`
forward trading dates exist, the forward returns carry exactly the keys
`1..m` (in order) and all four window-extrema fields are absent (`none`),
never zero- or null-filled. -/
theorem c4_partial_window (stock_data : List Bar) (earnings_date : Int)
    (days_after : Nat) (r : WindowResult)
    (h : calculate_price_movement stock_data earnings_date days_after = some r)
    (hlt : (postDates stock_data r.resolved_trading_date).length < days_after) :
    r.forward_returns.map Prod.fst =
      List.range' 1 (postDates stock_data r.resolved_trading_date).length ∧
    r.window_high = none ∧ r.window_low = none ∧
    r.window_max_gain_pct = none ∧ r.window_max_loss_pct = none := by
  obtain ⟨d, p, hres, hpre, hpost, hr⟩ := calculate_price_movement_eq_some h
  have hrd : r.resolved_trading_date = d := by rw [hr, mkResult_resolved]
  rw [hrd] at hlt ⊢
  obtain ⟨h1, h2, h3, h4⟩ :=
    mkResult_extrema_of_lt stock_data earnings_date days_after d p hlt
  refine ⟨?_, hr ▸ h1, hr ▸ h2, hr ▸ h3, hr ▸ h4⟩
  rw [hr, mkResult_forward_returns, Nat.min_eq_right (Nat.le_of_lt hlt),
    List.map_map, List.range'_eq_map_range]
  apply List.map_congr_left
  intro a _
  simp [Nat.add_comm]

/-- Witness for the C4 theorem: three forward dates with `forward_days = 5`
give keys 1, 2, 3 and no extrema fields. -/
theorem c4_partial_window_witness :
    calculate_price_movement exC4 2 5 = some rC4 ∧
    (postDates exC4 rC4.resolved_trading_date).length < 5 ∧
    (rC4.forward_returns.map Prod.fst =
        List.range' 1 (postDates exC4 rC4.resolved_trading_date).length ∧
      rC4.window_high = none ∧ rC4.window_low = none ∧
      rC4.window_max_gain_pct = none ∧ rC4.window_max_loss_pct = none) ∧
    rC4.forward_returns.map Prod.fst = [1, 2, 3] :=
  ⟨by decide, by decide,
    c4_partial_window exC4 2 5 rC4 (by decide) (by decide), by decide⟩

/-- Input of the C5 witness: event day 1 (flat at 100), baseline 100 at day 0,
five forward bars with highs 101,103,99,107,102 and lows 99,100,95,101,100. -/
def exC5 : List Bar :=
  [mkBar 0 100, mkBar 1 100, mkBarHL 3 101 99 100, mkBarHL 4 103 100 100,
    mkBarHL 5 99 95 100, mkBarHL 6 107 101 100, mkBarHL 7 102 100 100]

/-- Result of the C5 witness run. -/
def rC5 : WindowResult := (calculate_price_movement exC5 1 5).getD defaultResult

/-- Claim C5 (confirmed): when at least `forward_days` forward trading dates
exist, the result carries `window_high` = max of the high column and
`window_low` = min of the low column over the closed date range from the
resolved event day through the `forward_days`-th forward date inclusive, and
the max-gain/max-loss percentages relative to the baseline close, all rounded
to two decimals as the source does. -/
theorem c5_full_window_extrema (stock_data : List Bar) (earnings_date : Int)
    (days_after : Nat) (r : WindowResult) (p : Int) (_hk : 1 ≤ days_after)
    (h : calculate_price_movement stock_data earnings_date days_after = some r)
    (hp : (preDates stock_data r.resolved_trading_date).getLast? = some p)
    (hge : days_after ≤ (postDates stock_data r.resolved_trading_date).length) :
    r.window_high = some (round2 (maxlQ ((stock_data.filter (fun b =>
      decide (r.resolved_trading_date ≤ b.date ∧ b.date ≤
        (postDates stock_data r.resolved_trading_date).getD
          (days_after - 1) 0))).map Bar.high))) ∧
    r.window_low = some (round2 (minlQ ((stock_data.filter (fun b =>
      decide (r.resolved_trading_date ≤ b.date ∧ b.date ≤
        (postDates stock_data r.resolved_trading_date).getD
          (days_after - 1) 0))).map Bar.low))) ∧
    r.window_max_gain_pct = some (round2 ((maxlQ ((stock_data.filter (fun b =>
      decide (r.resolved_trading_date ≤ b.date ∧ b.date ≤
        (postDates stock_data r.resolved_trading_date).getD
          (days_after - 1) 0))).map Bar.high) - closeAt stock_data p) /
        closeAt stock_data p * 100)) ∧
    r.window_max_loss_pct = some (round2 ((minlQ ((stock_data.filter (fun b =>
      decide (r.resolved_trading_date ≤ b.date ∧ b.date ≤
        (postDates stock_data r.resolved_trading_date).getD
          (days_after - 1) 0))).map Bar.low) - closeAt stock_data p) /
        closeAt stock_data p * 100)) := by
  obtain ⟨d, p', hres, hpre, hpost, hr⟩ := calculate_price_movement_eq_some h
  have hrd : r.resolved_trading_date = d := by rw [hr, mkResult_resolved]
  rw [hrd] at hp hge ⊢
  have hpp : p' = p := Option.some_inj.mp (hpre.symm.trans hp)
  subst hpp
  obtain ⟨e1, e2, e3, e4⟩ :=
    mkResult_extrema_of_le stock_data earnings_date days_after d p' hge
  exact ⟨hr ▸ e1, hr ▸ e2, hr ▸ e3, hr ▸ e4⟩

/-- Witness for the C5 theorem: `window_high` = 107 with max gain 7.00 and
`window_low` = 95 with max loss -5.00 over baseline 100. -/
theorem c5_full_window_extrema_witness :
    (1 : Nat) ≤ 5 ∧
    calculate_price_movement exC5 1 5 = some rC5 ∧
    (preDates exC5 rC5.resolved_trading_date).getLast? = some 0 ∧
    (5 : Nat) ≤ (postDates exC5 rC5.resolved_trading_date).length ∧
    (rC5.window_high = some (round2 (maxlQ ((exC5.filter (fun b =>
        decide (rC5.resolved_trading_date ≤ b.date ∧ b.date ≤
          (postDates exC5 rC5.resolved_trading_date).getD (5 - 1) 0))).map Bar.high))) ∧
      rC5.window_low = some (round2 (minlQ ((exC5.filter (fun b =>
        decide (rC5.resolved_trading_date ≤ b.date ∧ b.date ≤
          (postDates exC5 rC5.resolved_trading_date).getD (5 - 1) 0))).map Bar.low))) ∧
      rC5.window_max_gain_pct = some (round2 ((maxlQ ((exC5.filter (fun b =>
        decide (rC5.resolved_trading_date ≤ b.date ∧ b.date ≤
          (postDates exC5 rC5.resolved_trading_date).getD (5 - 1) 0))).map Bar.high) -
          closeAt exC5 0) / closeAt exC5 0 * 100)) ∧
      rC5.window_max_loss_pct = some (round2 ((minlQ ((exC5.filter (fun b =>
        decide (rC5.resolved_trading_date ≤ b.date ∧ b.date ≤
          (postDates exC5 rC5.resolved_trading_date).getD (5 - 1) 0))).map Bar.low) -
          closeAt exC5 0) / closeAt exC5 0 * 100))) ∧
    rC5.window_high = some 107 ∧ rC5.window_max_gain_pct = some 7 ∧
    rC5.window_low = some 95 ∧ rC5.window_max_loss_pct = some (-5) :=
  ⟨by decide, by decide, by decide, by decide,
    c5_full_window_extrema exC5 1 5 rC5 0 (by decide) (by decide) (by decide) (by decide),
    by decide, by decide, by decide, by decide⟩

/-- Input of the C6 witness: two bars; event date 2 resolves to the last bar. -/
def exC6 : List Bar := [mkBar 1 100, mkBar 2 105]

/-- Claim C6 (confirmed): on a strictly ascending series, when the resolved
event trading day is the first entry of the series (so no baseline exists) or
the last entry (so no forward data exists), `compute` returns `None`. -/
theorem c6_boundary_guards (stock_data : List Bar) (earnings_date : Int)
    (days_after : Nat) (d : Int) (hs : SortedSeries stock_data)
    (hres : resolveEventDay stock_data earnings_date = some d) :
    ((tradingDates stock_data).head? = some d →
      calculate_price_movement stock_data earnings_date days_after = none) ∧
    ((tradingDates stock_data).getLast? = some d →
      calculate_price_movement stock_data earnings_date days_after = none) := by
  constructor
  · intro hhead
    have hpre : preDates stock_data d = [] := by
      simp only [preDates, List.filter_eq_nil_iff, decide_eq_true_eq]
      intro x hx
      exact not_lt.mpr (sorted_head_le hs hhead x hx)
    simp [calculate_price_movement, hres, hpre]
  · intro hlast
    have hpost : postDates stock_data d = [] := by
      simp only [postDates, List.filter_eq_nil_iff, decide_eq_true_eq]
      intro x hx
      exact not_lt.mpr (sorted_le_getLast hs hlast x hx)
    rcases hpre2 : (preDates stock_data d).getLast? with _ | p
    · simp [calculate_price_movement, hres, hpre2]
    · simp [calculate_price_movement, hres, hpre2, hpost]

/-- Witness for the C6 theorem: event date 2 on the two-bar series resolves to
date 2, the last entry, and `compute` returns `None`. -/
theorem c6_boundary_guards_witness :
    SortedSeries exC6 ∧ resolveEventDay exC6 2 = some 2 ∧
    (((tradingDates exC6).head? = some 2 →
        calculate_price_movement exC6 2 5 = none) ∧
      ((tradingDates exC6).getLast? = some 2 →
        calculate_price_movement exC6 2 5 = none)) ∧
    (tradingDates exC6).getLast? = some 2 ∧
    calculate_price_movement exC6 2 5 = none :=
  ⟨by decide, by decide, c6_boundary_guards exC6 2 5 2 (by decide) (by decide),
    by decide, by decide⟩

/-- Input of the C7 run: the baseline (pre-event) close is 0. -/
def exC7 : List Bar := [mkBar 1 0, mkBar 2 105, mkBar 3 110]

/-- Claim C7 (code bug): the source has no guard or assertion on a zero
baseline close.  On the series with baseline close 0 (event date 1, resolved
day 2, baseline day 1) `compute` returns an ordinary result record — in the
Python source the numpy float64 division silently yields `inf`, and no
`DomainInvariantViolation` is raised.  (In this ℚ embedding the division
totalizes to 0; the point proved is that the call succeeds with an ordinary
record instead of failing loudly.) -/
theorem c7_zero_baseline_unguarded :
    (calculate_price_movement exC7 1 5).map WindowResult.pre_event_close = some 0 ∧
    (calculate_price_movement exC7 1 5).isSome = true := by decide

/-- The length of `filterMap` counts the elements mapped to `some`. -/
theorem length_filterMap_eq_countP_isSome {α β : Type} (f : α → Option β)
    (l : List α) :
    (l.filterMap f).length = l.countP (fun a => (f a).isSome) := by
  induction l with
  | nil => rfl
  | cons a t ih =>
    rw [List.filterMap_cons, List.countP_cons]
    rcases hfa : f a with _ | b
    · simp [hfa, ih]
    · simp [hfa, ih]

/-- Input of the C8 counterexample and witness: four consecutive bars, on
which event date 2 analyses successfully and event date 100 does not. -/
def exC8 : List Bar := [mkBar 1 100, mkBar 2 101, mkBar 3 102, mkBar 4 103]

/-- Claim C8, counterexample to "exactly one WindowResult per event date in
the list for which compute returns non-None": with 16 event dates, every one
of which `compute` analyses successfully, the batch yields only 15 results,
because the source slices `earnings_dates[:15]`. -/
theorem c8_counterexample :
    (∀ d ∈ List.replicate 16 (2 : Int), (calculate_price_movement exC8 d 5).isSome) ∧
    (List.replicate 16 (2 : Int)).length = 16 ∧
    (analyze_stock_earnings exC8 (List.replicate 16 2)).length = 15 := by decide

/-- Claim C8 (amended): for every list of at most 15 event dates, the batch
keeps exactly the non-`None` results of `compute`, one per successful date and
in order; dates on which `compute` returns `None` are skipped without
aborting the batch.  (For longer lists the source analyses only the first 15
dates, which refutes the unrestricted claim.) -/
theorem c8_batch_aggregation (stock_data : List Bar) (earnings_dates : List Int)
    (h : earnings_dates.length ≤ 15) :
    analyze_stock_earnings stock_data earnings_dates =
      earnings_dates.filterMap (fun e => calculate_price_movement stock_data e 5) ∧
    (analyze_stock_earnings stock_data earnings_dates).length =
      earnings_dates.countP
        (fun e => (calculate_price_movement stock_data e 5).isSome) := by
  have htake : earnings_dates.take 15 = earnings_dates :=
    List.take_of_length_le h
  constructor
  · rw [analyze_stock_earnings, htake]
  · rw [analyze_stock_earnings, htake, length_filterMap_eq_countP_isSome]

/-- Witness for the C8 theorem: the two-date batch [2, 100] yields one result
(date 2) and skips date 100, on which `compute` returns `None`. -/
theorem c8_batch_aggregation_witness :
    ([(2 : Int), 100] : List Int).length ≤ 15 ∧
    (analyze_stock_earnings exC8 [2, 100] =
        ([(2 : Int), 100]).filterMap (fun e => calculate_price_movement exC8 e 5) ∧
      (analyze_stock_earnings exC8 [2, 100]).length =
        ([(2 : Int), 100]).countP
          (fun e => (calculate_price_movement exC8 e 5).isSome)) ∧
    calculate_price_movement exC8 100 5 = none ∧
    (analyze_stock_earnings exC8 [2, 100]).length = 1 :=
  ⟨by decide, c8_batch_aggregation exC8 [2, 100] (by decide), by decide, by decide⟩

/-- Input of the C9 witness: a timezone-naive two-bar series. -/
def exC9 : StockData := ⟨none, [mkBar 1 100, mkBar 2 101]⟩

/-- Claim C9 (confirmed): on a timezone-naive (and sorted) input series, a
call to `compute` leaves the input completely unchanged — the only in-place
write in the source (re-assigning the index to strip a timezone) is guarded
by `stock_data.index.tz is not None` and is not reached. -/
theorem c9_no_mutation (stock_data : StockData) (earnings_date : Int)
    (days_after : Nat) (_hs : SortedSeries stock_data.bars)
    (htz : stock_data.tz = none) :
    (calculate_price_movement_call stock_data earnings_date days_after).2 =
      stock_data := by
  simp [calculate_price_movement_call, htz]

/-- Witness for the C9 theorem: the two-bar naive series is returned intact. -/
theorem c9_no_mutation_witness :
    SortedSeries exC9.bars ∧ exC9.tz = none ∧
    (calculate_price_movement_call exC9 2 5).2 = exC9 :=
  ⟨by decide, by decide, c9_no_mutation exC9 2 5 (by decide) (by decide)⟩

/-- Input of the C10 witness. -/
def exC10 : List Bar := [mkBar 1 100, mkBar 2 105, mkBar 4 101]

/-- Result of the C10 witness run. -/
def rC10 : WindowResult := (calculate_price_movement exC10 2 5).getD defaultResult

/-- Claim C10 (confirmed): whenever `compute` returns a result (with the
contractual `forward_days ≥ 1`), the forward-returns mapping is nonempty and
starts with the day-1 entry, and the day-1 close is present: the no-forward-
data guard guarantees at least one forward trading date and the loop always
processes day 1. -/
theorem c10_day1_always_present (stock_data : List Bar) (earnings_date : Int)
    (days_after : Nat) (r : WindowResult) (hk : 1 ≤ days_after)
    (h : calculate_price_movement stock_data earnings_date days_after = some r) :
    (∃ q, r.forward_returns[0]? = some (1, q)) ∧ r.day1_close.isSome = true := by
  obtain ⟨d, p, hres, hpre, hpost, hr⟩ := calculate_price_movement_eq_some h
  have hlen : 1 ≤ (postDates stock_data d).length :=
    Nat.succ_le_of_lt (List.length_pos.mpr hpost)
  have hm : 0 < min days_after (postDates stock_data d).length := by
    omega
  constructor
  · refine ⟨round2 ((closeAt stock_data ((postDates stock_data d).getD 0 0) -
      closeAt stock_data p) / closeAt stock_data p * 100), ?_⟩
    rw [hr, mkResult_forward_returns, List.getElem?_map, List.getElem?_range hm]
    rfl
  · rw [hr, mkResult_day1_close, if_pos (by omega)]
    rfl

/-- Witness for the C10 theorem: the one-forward-date series has the day-1
entry and the day-1 close. -/
theorem c10_day1_always_present_witness :
    (1 : Nat) ≤ 5 ∧
    calculate_price_movement exC10 2 5 = some rC10 ∧
    ((∃ q, rC10.forward_returns[0]? = some (1, q)) ∧ rC10.day1_close.isSome = true) ∧
    rC10.forward_returns[0]? = some ((1 : Nat), (1 : ℚ)) ∧
    rC10.day1_close = some 101 :=
  ⟨by decide, by decide,
    c10_day1_always_present exC10 2 5 rC10 (by decide) (by decide),
    by decide, by decide⟩
